import Mathlib

/-!
Shallow embedding of the live audio capture / playback / mixing pipeline of
the omotiv repository (src/ui/recording_booth.py and src/player.py).

Python float arithmetic on samples is idealized as exact rational arithmetic
(ℚ); the RMS level estimator, which takes a square root, is modelled over ℝ.
NumPy arrays of shape frames×channels are modelled as lists of frames, each
frame a list of per-channel samples.
-/

namespace Omotiv

/-- One captured audio chunk (a block of mono samples), as delivered by the
input-stream callback in `RecordingBooth.on_record`. -/
abbrev Chunk := List ℚ

/-- One playback frame: one sample per channel (a row of the 2-D numpy
array `AudioPlayer.data`). -/
abbrev Frame := List ℚ

/-! ### Capture buffer (`RecordingBooth.on_record` / `record_callback`) -/

/-- `self.max_record_seconds = 600` in `RecordingBooth.__init__`. -/
def max_record_seconds : Nat := 600

/-- `self.max_recording_chunks = self.max_record_seconds * 44` in
`RecordingBooth.__init__`. -/
def max_recording_chunks : Nat := max_record_seconds * 44

/-- The mutable state touched by `record_callback`: the chunk list
`self.recording_data` and a count of "Recording buffer full" warnings
printed so far (the code `print`s the warning; we count the prints). -/
structure RecordState where
  recording_data : List Chunk
  warnings : Nat

/-- One invocation of `record_callback(indata, ...)` inside
`RecordingBooth.on_record`: if `len(self.recording_data) <
self.max_recording_chunks` the chunk is appended, otherwise the chunk is
dropped and the buffer-full warning is printed. The capacity bound is the
booth's `max_recording_chunks` attribute, passed here as a parameter. -/
def record_callback (bound : Nat) (s : RecordState) (indata : Chunk) : RecordState :=
  if s.recording_data.length < bound then
    { s with recording_data := s.recording_data ++ [indata] }
  else
    { s with warnings := s.warnings + 1 }

/-- A whole capture session: the sequence of chunks the hardware delivers,
folded through `record_callback`. -/
def pushAll (bound : Nat) (cs : List Chunk) (s : RecordState) : RecordState :=
  cs.foldl (record_callback bound) s

/-! ### Mix export (`RecordingBooth.on_export`) -/

/-- `np.abs(f).max()` over one frame, with 0 for the empty frame. -/
def frameAbsMax (f : Frame) : ℚ :=
  (f.map (fun x => |x|)).foldr max 0

/-- `max_val = np.abs(mix).max()` over a frames×channels array, with 0 for
the empty array. -/
def absMax (a : List Frame) : ℚ :=
  (a.map frameAbsMax).foldr max 0

/-- The normalization step of `RecordingBooth.on_export`:
`if max_val > 0.5: mix = mix / max_val * 0.95`, elementwise on the 2-D
array. -/
def normalize_mix (mix : List Frame) : List Frame :=
  if 1/2 < absMax mix then
    mix.map (fun f => f.map (fun x => x / absMax mix * (95/100)))
  else mix

/-- Scalar multiplication of a frames×channels array, as in
`track_trimmed * track_vol`. -/
def scaleA (c : ℚ) (a : List Frame) : List Frame :=
  a.map (fun f => f.map (fun x => x * c))

/-- Elementwise sum of two frames×channels arrays, as in numpy `+`. -/
def addA (a b : List Frame) : List Frame :=
  List.zipWith (fun f g => List.zipWith (fun x y => x + y) f g) a b

/-- The length-matching step of `RecordingBooth.on_export`:
`vocal[:L] if len(vocal) >= L else np.pad(vocal, ((0, L-len(vocal)), (0,0)))`
where `L = end_frame - start_frame` is the backing-window length and `nch`
is the channel count (`np.pad` appends rows of zeros). -/
def matchVocal (L : Nat) (nch : Nat) (vocal : List Frame) : List Frame :=
  if L ≤ vocal.length then vocal.take L
  else vocal ++ List.replicate (L - vocal.length) (List.replicate nch 0)

/-- The pre-normalization mix of `RecordingBooth.on_export`:
`mix = (track_trimmed * track_vol) + (vocal_trimmed * vocal_vol)` where
`vocal_trimmed` is the take matched to the backing-window length. -/
def mixExport (track_trimmed vocal : List Frame) (nch : Nat)
    (track_vol vocal_vol : ℚ) : List Frame :=
  addA (scaleA track_vol track_trimmed)
    (scaleA vocal_vol (matchVocal track_trimmed.length nch vocal))

/-- The content of claim C1, at a given mixed array: when the peak
absolute sample exceeds 0.5 every sample is scaled by the identical factor
`0.95 / peak` and the output peak is exactly 0.95; when the peak is at
most 0.5 the mix is returned unchanged. -/
def NormalizeSpec (mix : List Frame) : Prop :=
  (1/2 < absMax mix →
     normalize_mix mix
       = mix.map (fun f => f.map (fun x => x * ((95/100) / absMax mix))) ∧
     absMax (normalize_mix mix) = 95/100) ∧
  (absMax mix ≤ 1/2 → normalize_mix mix = mix)

/-- The content of claim C8, at given inputs: a take shorter than the
backing window is zero-padded at the end, a longer one is truncated to the
window length, and the pre-normalization mix is
`backing * gainBacking + take' * gainTake` sample-wise per channel. -/
def MixSpec (track_trimmed vocal : List Frame) (nch : Nat)
    (track_vol vocal_vol : ℚ) : Prop :=
  (vocal.length < track_trimmed.length →
     matchVocal track_trimmed.length nch vocal
       = vocal ++ List.replicate (track_trimmed.length - vocal.length)
           (List.replicate nch 0)) ∧
  (track_trimmed.length ≤ vocal.length →
     matchVocal track_trimmed.length nch vocal
       = vocal.take track_trimmed.length) ∧
  mixExport track_trimmed vocal nch track_vol vocal_vol
    = List.zipWith
        (fun tf vf =>
          List.zipWith (fun t v => t * track_vol + v * vocal_vol) tf vf)
        track_trimmed (matchVocal track_trimmed.length nch vocal)

/-! ### Playback callback (`AudioPlayer._callback` in recording_booth.py) -/

/-- What one `_callback` invocation produces: the block written to
`outdata`, the new value of `self.position`, and whether
`sd.CallbackStop()` was raised. -/
structure CallbackOut where
  outdata : List Frame
  position : Nat
  callbackStop : Bool

/-- `AudioPlayer._callback(outdata, frames, ...)`: slice
`data[position:end]` with `end = min(position + frames, len(data))`,
advance the cursor to `end`, multiply the slice by `self.volume`, and if
the slice is shorter than `frames`, zero-pad it (rows of `nch =
data.shape[1]` zeros) and raise `sd.CallbackStop()`. -/
def player_callback (data : List Frame) (nch : Nat) (volume : ℚ)
    (position frames : Nat) : CallbackOut :=
  let endPos := min (position + frames) data.length
  let chunk := ((data.drop position).take (endPos - position)).map
    (fun f => f.map (fun x => x * volume))
  if chunk.length < frames then
    { outdata := chunk ++ List.replicate (frames - chunk.length) (List.replicate nch 0),
      position := endPos,
      callbackStop := true }
  else
    { outdata := chunk, position := endPos, callbackStop := false }

/-- The content of claim C4, at given inputs: the callback emits the next
`frames` cursor-relative samples scaled by the gain, padded with zero
frames to the requested length; its output has exactly `frames` frames;
the cursor advances by the number of frames actually read; and
end-of-stream is signalled exactly when fewer frames than requested
remained. -/
def CallbackCorrect (data : List Frame) (nch : Nat) (volume : ℚ)
    (position frames : Nat) : Prop :=
  (player_callback data nch volume position frames).outdata
      = ((data.drop position).take frames).map (fun f => f.map (fun x => x * volume))
        ++ List.replicate (frames - min frames (data.length - position))
            (List.replicate nch 0) ∧
  (player_callback data nch volume position frames).outdata.length = frames ∧
  (player_callback data nch volume position frames).position
      = position + min frames (data.length - position) ∧
  ((player_callback data nch volume position frames).callbackStop = true
      ↔ min frames (data.length - position) < frames)

/-! ### Player control state (`AudioPlayer` in recording_booth.py) -/

/-- The fields of `AudioPlayer` that `pause`, `stop` and `_on_finished`
touch: `self.stream` (modelled by `hasStream` = "stream is not None" and
`streamActive` = `stream.active`), `self.position` and
`self.is_playing`. -/
structure PlayerState where
  hasStream : Bool
  streamActive : Bool
  position : Nat
  is_playing : Bool

/-- `AudioPlayer.pause`: `if self.stream and self.stream.active:
self.stream.stop(); self.is_playing = False`. -/
def pause (s : PlayerState) : PlayerState :=
  if s.hasStream && s.streamActive then
    { s with streamActive := false, is_playing := false }
  else s

/-- `AudioPlayer.stop`: if a stream exists, stop it when active, close it
and set it to `None`; always set `self.is_playing = False`. -/
def stop (s : PlayerState) : PlayerState :=
  if s.hasStream then
    { s with hasStream := false, streamActive := false, is_playing := false }
  else
    { s with is_playing := false }

/-- `AudioPlayer._on_finished` (the stream's finished callback):
`self.is_playing = False` and `self.position = 0`. -/
def on_finished (s : PlayerState) : PlayerState :=
  { s with is_playing := false, position := 0 }

/-! ### Level estimator (`AudioPlayer.get_output_level`) -/

/-- `np.sqrt(np.mean(chunk**2))`, the root-mean-square of a chunk
(division by zero in ℝ yields 0, matching `sqrt(0/0)` never being reached
in the guarded code). -/
noncomputable def rms (chunk : List ℝ) : ℝ :=
  Real.sqrt ((chunk.map (fun x => x ^ 2)).sum / chunk.length)

/-- `AudioPlayer.get_output_level`: return 0.0 for a missing or
zero-length chunk (`chunk is None or len(chunk) == 0`, the `None` case
modelled as the empty list), else `min(rms * 5, 1.0)`. -/
noncomputable def get_output_level (chunk : List ℝ) : ℝ :=
  if chunk.length = 0 then 0
  else min (Real.sqrt ((chunk.map (fun x => x ^ 2)).sum / chunk.length) * 5) 1

/-! ### Seek (`AudioPlayer.seek`, identical in player.py and
recording_booth.py) -/

/-- Python `int(q)`: truncation toward zero. -/
def int_trunc (q : ℚ) : ℤ :=
  if 0 ≤ q then ⌊q⌋ else ⌈q⌉

/-- `AudioPlayer.seek(seconds)` with a track loaded: `frame =
int(seconds * self.samplerate); self.position = max(0, min(frame,
len(self.data)))`. Returns the new cursor. -/
def seek (dataLen : Nat) (samplerate : ℚ) (seconds : ℚ) : ℤ :=
  max 0 (min (int_trunc (seconds * samplerate)) (dataLen : ℤ))

/-! ### The unloaded player (`AudioPlayer` in player.py, `self.data is
None`) -/

/-- The `AudioPlayer` state of player.py: the loaded track (`None` before
`load`), sample rate, cursor, playing flag and stream. -/
structure PState where
  hasStream : Bool
  streamActive : Bool
  data : Option (List Frame)
  samplerate : ℚ
  position : Nat
  is_playing : Bool

/-- `AudioPlayer.stop` of player.py (same body as in
recording_booth.py). -/
def stopP (s : PState) : PState :=
  if s.hasStream then
    { s with hasStream := false, streamActive := false, is_playing := false }
  else
    { s with is_playing := false }

/-- `AudioPlayer.play`: `if self.data is None: return`; otherwise stop any
existing stream and open a fresh output stream (the success path of
`sd.OutputStream(...)` + `start()`). -/
def play (s : PState) : PState :=
  match s.data with
  | none => s
  | some _ =>
    let s1 := stopP s
    { s1 with hasStream := true, streamActive := true, is_playing := true }

/-- `AudioPlayer.seek(seconds)` of player.py: `if self.data is None:
return`, else clamp as in `seek`. -/
def seekS (s : PState) (seconds : ℚ) : PState :=
  match s.data with
  | none => s
  | some d => { s with position := (seek d.length s.samplerate seconds).toNat }

/-- `AudioPlayer.get_position`: `self.position / self.samplerate if
self.data is not None else 0.0`. -/
def get_position (s : PState) : ℚ :=
  match s.data with
  | none => 0
  | some _ => (s.position : ℚ) / s.samplerate

/-- `AudioPlayer.get_duration`: `len(self.data) / self.samplerate if
self.data is not None else 0.0`. -/
def get_duration (s : PState) : ℚ :=
  match s.data with
  | none => 0
  | some d => (d.length : ℚ) / s.samplerate

/-- The content of claim C10 at a given state: `play` and `seek` are
no-ops (no stream opened, no state changed) and both getters return 0. -/
def UnloadedSafe (s : PState) : Prop :=
  play s = s ∧ (∀ sec : ℚ, seekS s sec = s) ∧
  get_position s = 0 ∧ get_duration s = 0

/-! ### Finishing a recording (`RecordingBooth.finish_recording`) -/

/-- The status message `finish_recording` leaves in the UI. -/
inductive RecStatus where
  | takeSaved : RecStatus
  | nothingRecorded : RecStatus
  | cancelled : RecStatus
deriving DecidableEq

/-- The observable outcome of `RecordingBooth.finish_recording`: the
samples written to the take file (`none` when no `sf.write` happens), the
`self.recorded_vocal` reference (`none` models Python `None`), and the
status message. -/
structure FinishResult where
  written : Option (List ℚ)
  recorded_vocal : Option (List ℚ)
  status : RecStatus

/-- `RecordingBooth.finish_recording(save)`: when saving, a non-empty
`self.recording_data` is concatenated (`np.concatenate`) and written, and
`self.recorded_vocal` is set to the written take; an empty one writes
nothing, reports "No audio recorded." and sets `self.recorded_vocal =
None`; cancelling discards everything. -/
def finish_recording (save : Bool) (recording_data : List Chunk) : FinishResult :=
  if save then
    if recording_data.isEmpty then
      { written := none, recorded_vocal := none, status := .nothingRecorded }
    else
      let recording := recording_data.flatten
      { written := some recording, recorded_vocal := some recording,
        status := .takeSaved }
  else
    { written := none, recorded_vocal := none, status := .cancelled }

/-! ## Theorems -/

/-- Closed form for a capture session starting from a buffer of length at
most the bound: the first `bound - |buf|` delivered chunks are appended in
order, the rest are dropped, and one warning is printed per dropped
chunk. -/
theorem pushAll_eq (bound : Nat) (cs : List Chunk) (s : RecordState)
    (h : s.recording_data.length ≤ bound) :
    (pushAll bound cs s).recording_data
      = s.recording_data ++ cs.take (bound - s.recording_data.length) ∧
    (pushAll bound cs s).warnings
      = s.warnings + (cs.length - (bound - s.recording_data.length)) := by
  induction cs generalizing s with
  | nil => simp [pushAll]
  | cons c cs ih =>
    by_cases hlt : s.recording_data.length < bound
    · have hstep : pushAll bound (c :: cs) s
          = pushAll bound cs ⟨s.recording_data ++ [c], s.warnings⟩ := by
        simp [pushAll, record_callback, hlt]
      have hlen : (s.recording_data ++ [c]).length ≤ bound := by
        simp; omega
      obtain ⟨h1, h2⟩ := ih ⟨s.recording_data ++ [c], s.warnings⟩ hlen
      rw [hstep]
      constructor
      · rw [h1]
        have hb : bound - s.recording_data.length
            = (bound - (s.recording_data ++ [c]).length) + 1 := by
          simp; omega
        rw [hb]
        simp [List.take_succ_cons]
      · rw [h2]
        simp
        omega
    · have hstep : pushAll bound (c :: cs) s
          = pushAll bound cs ⟨s.recording_data, s.warnings + 1⟩ := by
        simp [pushAll, record_callback, hlt]
      obtain ⟨h1, h2⟩ := ih ⟨s.recording_data, s.warnings + 1⟩ h
      rw [hstep]
      have hb : bound - s.recording_data.length = 0 := by omega
      constructor
      · rw [h1, hb]
        simp
      · rw [h2, hb]
        simp
        omega

/-- C3: over any sequence of delivered chunks, the recording buffer never
exceeds `max_recording_chunks = 600 * 44` chunks; exactly the first
`max_recording_chunks` chunks are retained, unchanged and in order, and
every later chunk is dropped (drop-newest). -/
theorem c3_buffer_capacity (cs : List Chunk) :
    (pushAll max_recording_chunks cs ⟨[], 0⟩).recording_data.length
        ≤ max_recording_chunks ∧
    (pushAll max_recording_chunks cs ⟨[], 0⟩).recording_data
        = cs.take max_recording_chunks ∧
    max_recording_chunks = 600 * 44 := by
  obtain ⟨h1, _⟩ := pushAll_eq max_recording_chunks cs ⟨[], 0⟩ (by simp)
  simp at h1
  refine ⟨?_, h1, rfl⟩
  rw [h1]
  exact List.length_take_le _ _

/-- C2 counterexample: a session that delivers `max_recording_chunks + 2`
chunks prints the buffer-full warning twice, not exactly once. -/
theorem c2_overflow_counterexample :
    (pushAll max_recording_chunks
        (List.replicate (max_recording_chunks + 2) ([0] : Chunk))
        ⟨[], 0⟩).warnings = 2 ∧
    max_recording_chunks < max_recording_chunks + 2 ∧ (2 : Nat) ≠ 1 := by
  obtain ⟨_, h2⟩ := pushAll_eq max_recording_chunks
    (List.replicate (max_recording_chunks + 2) ([0] : Chunk)) ⟨[], 0⟩ (by simp)
  rw [List.length_replicate, List.length_nil] at h2
  refine ⟨?_, by omega, by omega⟩
  rw [h2]
  decide

/-- C2 amended: the overflow condition is reported once per dropped chunk,
not once per session: a session delivering `cs` prints exactly
`cs.length - max_recording_chunks` warnings (0 when the bound is not
exceeded), which equals the number of chunks dropped rather than
stored. -/
theorem c2_overflow_per_dropped_chunk (cs : List Chunk) :
    (pushAll max_recording_chunks cs ⟨[], 0⟩).warnings
        = cs.length - max_recording_chunks ∧
    (pushAll max_recording_chunks cs ⟨[], 0⟩).warnings
        = cs.length
          - (pushAll max_recording_chunks cs ⟨[], 0⟩).recording_data.length := by
  obtain ⟨h1, h2⟩ := pushAll_eq max_recording_chunks cs ⟨[], 0⟩ (by simp)
  simp at h1 h2
  refine ⟨h2, ?_⟩
  rw [h1, h2, List.length_take]
  omega

/-- C9: stopping a capture session with persistence requested
(`finish_recording(save=True)`) when no chunks were captured writes no
file, leaves `recorded_vocal` unset, and reports the
nothing-recorded condition. -/
theorem c9_nothing_recorded :
    (finish_recording true []).written = none ∧
    (finish_recording true []).recorded_vocal = none ∧
    (finish_recording true []).status = RecStatus.nothingRecorded := by
  exact ⟨rfl, rfl, rfl⟩

/-- C5 counterexample: `stop()` on a player whose cursor is at frame 5
leaves the cursor at 5; it does not reset it to 0. -/
theorem c5_stop_counterexample :
    (stop ⟨true, true, 5, true⟩).position = 5 ∧ (5 : Nat) ≠ 0 := by
  exact ⟨rfl, by omega⟩

/-- C5 amended: `pause()` leaves the playback cursor unchanged, and so
does `stop()` — only the finished callback (`_on_finished`, natural end of
stream) resets the cursor to 0. The two operations are distinct in stream
disposal, not in cursor effect: `stop` discards the stream while `pause`
keeps it. -/
theorem c5_cursor_effects (s : PlayerState) :
    (pause s).position = s.position ∧
    (stop s).position = s.position ∧
    (on_finished s).position = 0 ∧
    (stop s).hasStream = false ∧
    (pause s).hasStream = s.hasStream := by
  refine ⟨?_, ?_, rfl, ?_, ?_⟩ <;>
    simp [pause, stop, on_finished] <;>
    by_cases h1 : s.hasStream <;> by_cases h2 : s.streamActive <;> simp [h1, h2]

/-- C7: for every track length and every requested seek time, including
negative times and times past the end, `seek` clamps the requested frame
into `[0, len(data)]`; concretely, on a 10-second track at 44100 Hz,
`seek(-5)` yields cursor 0 and `seek(50)` yields cursor 441000, which is
the end (position 441000/44100 = 10 seconds). -/
theorem c7_seek_clamps (dataLen : Nat) (samplerate seconds : ℚ) :
    0 ≤ seek dataLen samplerate seconds ∧
    seek dataLen samplerate seconds ≤ (dataLen : ℤ) ∧
    seek 441000 44100 (-5) = 0 ∧
    seek 441000 44100 50 = 441000 ∧
    (441000 : ℚ) / 44100 = 10 := by
  refine ⟨le_max_left 0 _,
    max_le (Int.natCast_nonneg _) (min_le_right _ _), ?_, ?_, by norm_num⟩
  · have h : ((-5 : ℚ) * 44100) = ((-220500 : ℤ) : ℚ) := by norm_num
    rw [seek, int_trunc, h]
    rw [if_neg (by norm_num), Int.ceil_intCast]
    norm_num
  · have h : ((50 : ℚ) * 44100) = ((2205000 : ℤ) : ℚ) := by norm_num
    rw [seek, int_trunc, h]
    rw [if_pos (by norm_num), Int.floor_intCast]
    norm_num

/-- C10: on a player with no track loaded (`self.data is None`), `play`
and `seek` return without opening a stream or changing any state, and
`get_position` and `get_duration` both return 0.0. -/
theorem c10_unloaded_noop (s : PState) (h : s.data = none) :
    UnloadedSafe s := by
  refine ⟨?_, fun sec => ?_, ?_, ?_⟩ <;>
    simp [play, seekS, get_position, get_duration, UnloadedSafe, h]

/-- Witness for C10 at the freshly constructed player. -/
theorem c10_unloaded_noop_witness :
    (PState.mk false false none 44100 0 false).data = none ∧
    UnloadedSafe (PState.mk false false none 44100 0 false) :=
  ⟨rfl, c10_unloaded_noop (PState.mk false false none 44100 0 false) rfl⟩

/-- C6: the level estimator returns `min(5 * RMS(chunk), 1.0)`, a value in
`[0, 1]`, for every chunk; an all-zero chunk of any length and the
empty/zero-length chunk (where the guard avoids dividing by zero) give
exactly 0.0. -/
theorem c6_level_estimator :
    (∀ chunk : List ℝ,
      get_output_level chunk = min (5 * rms chunk) 1 ∧
      0 ≤ get_output_level chunk ∧ get_output_level chunk ≤ 1) ∧
    (∀ n : ℕ, get_output_level (List.replicate n (0 : ℝ)) = 0) ∧
    get_output_level [] = 0 := by
  have key : ∀ chunk : List ℝ, get_output_level chunk = min (5 * rms chunk) 1 := by
    intro chunk
    rw [get_output_level, rms]
    by_cases h : chunk.length = 0
    · rw [if_pos h]
      rw [List.length_eq_zero] at h
      subst h
      simp
    · rw [if_neg h, mul_comm]
  have nonneg : ∀ chunk : List ℝ, 0 ≤ get_output_level chunk := by
    intro chunk
    rw [key]
    have hs : 0 ≤ rms chunk := Real.sqrt_nonneg _
    exact le_min (by nlinarith) zero_le_one
  have le1 : ∀ chunk : List ℝ, get_output_level chunk ≤ 1 := by
    intro chunk
    rw [key]
    exact min_le_right _ _
  have repl : ∀ n : ℕ, get_output_level (List.replicate n (0 : ℝ)) = 0 := by
    intro n
    rw [key]
    have hz : rms (List.replicate n (0 : ℝ)) = 0 := by
      rw [rms]
      simp
    rw [hz, mul_zero]
    exact min_eq_left zero_le_one
  exact ⟨fun c => ⟨key c, nonneg c, le1 c⟩, repl, by simpa using repl 0⟩

/-- Scaling every element of a list by a nonnegative factor scales its
`foldr max 0` by the same factor. -/
theorem foldr_max_map_mul (l : List ℚ) (k : ℚ) (hk : 0 ≤ k) :
    (l.map (fun x => x * k)).foldr max 0 = (l.foldr max 0) * k := by
  induction l with
  | nil => simp
  | cons a l ih => simp [ih, max_mul_of_nonneg _ _ hk]

/-- Scaling a frame by a nonnegative factor scales its absolute peak. -/
theorem frameAbsMax_scale (f : Frame) (k : ℚ) (hk : 0 ≤ k) :
    frameAbsMax (f.map (fun x => x * k)) = frameAbsMax f * k := by
  have h1 : (f.map (fun x => x * k)).map (fun x => |x|)
      = (f.map (fun x => |x|)).map (fun x => x * k) := by
    simp [List.map_map, Function.comp_def, abs_mul, abs_of_nonneg hk]
  rw [frameAbsMax, h1, foldr_max_map_mul _ k hk, frameAbsMax]

/-- Scaling a whole frames×channels array by a nonnegative factor scales
its absolute peak. -/
theorem absMax_scale (a : List Frame) (k : ℚ) (hk : 0 ≤ k) :
    absMax (a.map (fun f => f.map (fun x => x * k))) = absMax a * k := by
  have h1 : (a.map (fun f => f.map (fun x => x * k))).map frameAbsMax
      = (a.map frameAbsMax).map (fun x => x * k) := by
    rw [List.map_map, List.map_map]
    apply List.map_congr_left
    intro f _
    exact frameAbsMax_scale f k hk
  rw [absMax, h1, foldr_max_map_mul _ k hk, absMax]

/-- C1: the export normalization scales every sample by the one factor
`0.95 / peak` when the peak exceeds 0.5, making the output peak exactly
0.95, and returns the mix unchanged when the peak is at most 0.5. -/
theorem c1_normalization (mix : List Frame) : NormalizeSpec mix := by
  constructor
  · intro h
    have hpos : 0 < absMax mix := lt_trans (by norm_num) h
    have hfun : normalize_mix mix
        = mix.map (fun f => f.map (fun x => x * ((95/100) / absMax mix))) := by
      rw [normalize_mix, if_pos h]
      apply List.map_congr_left
      intro f _
      apply List.map_congr_left
      intro x _
      ring
    refine ⟨hfun, ?_⟩
    rw [hfun, absMax_scale _ _ (div_pos (by norm_num) hpos).le]
    field_simp
    ring
  · intro h
    rw [normalize_mix, if_neg (not_lt.mpr h)]

/-- Witness for C1 at the one-sample mix with peak 0.8 (which the claim
uses as its example: it is scaled by 0.95/0.8). -/
theorem c1_normalization_witness : NormalizeSpec [[(4 : ℚ)/5]] :=
  c1_normalization [[(4 : ℚ)/5]]

/-- Adding two frames after scaling them equals the sample-wise weighted
sum. -/
theorem zipWith_add_map_mul (c d : ℚ) (f g : Frame) :
    List.zipWith (fun x y => x + y)
        (f.map (fun x => x * c)) (g.map (fun x => x * d))
      = List.zipWith (fun x y => x * c + y * d) f g := by
  induction f generalizing g with
  | nil => simp
  | cons a f ih => cases g <;> simp [ih]

/-- The numpy expression `a * c + b * d` on frames×channels arrays equals
the sample-wise weighted sum. -/
theorem addA_scaleA (c d : ℚ) (a b : List Frame) :
    addA (scaleA c a) (scaleA d b)
      = List.zipWith
          (fun tf vf => List.zipWith (fun t v => t * c + v * d) tf vf) a b := by
  induction a generalizing b with
  | nil => simp [addA, scaleA]
  | cons f a ih =>
    cases b with
    | nil => simp [addA, scaleA]
    | cons g b =>
      simp only [addA, scaleA, List.map_cons, List.zipWith_cons_cons]
      rw [zipWith_add_map_mul c d f g]
      have ihb := ih b
      simp only [addA, scaleA] at ihb
      rw [ihb]

/-- C8: the pre-normalization export mix pads a short take with zero
frames and truncates a long one to the backing-window length, then forms
`backing * gainBacking + take' * gainTake` sample-wise per channel. -/
theorem c8_premix (track_trimmed vocal : List Frame) (nch : Nat)
    (track_vol vocal_vol : ℚ) :
    MixSpec track_trimmed vocal nch track_vol vocal_vol ∧
    mixExport [[(1:ℚ)/5], [(1:ℚ)/5], [(1:ℚ)/5], [(1:ℚ)/5]]
        [[(2:ℚ)/5], [(2:ℚ)/5]] 1 (1/2) 1
      = [[(1:ℚ)/2], [(1:ℚ)/2], [(1:ℚ)/10], [(1:ℚ)/10]] ∧
    normalize_mix [[(1:ℚ)/2], [(1:ℚ)/2], [(1:ℚ)/10], [(1:ℚ)/10]]
      = [[(1:ℚ)/2], [(1:ℚ)/2], [(1:ℚ)/10], [(1:ℚ)/10]] := by
  refine ⟨⟨?_, ?_, ?_⟩, ?_, ?_⟩
  · intro h
    rw [matchVocal, if_neg (by omega)]
  · intro h
    rw [matchVocal, if_pos h]
  · rw [mixExport, addA_scaleA]
  · norm_num [mixExport, matchVocal, scaleA, addA, List.replicate]
  · have habs : absMax [[(1:ℚ)/2], [(1:ℚ)/2], [(1:ℚ)/10], [(1:ℚ)/10]] = 1/2 := by
      norm_num [absMax, frameAbsMax, max_def, abs_of_nonneg]
    rw [normalize_mix, habs, if_neg (by norm_num)]

/-- Witness for C8 at the claim's concrete scenario: a 4-sample backing at
gain 0.5 and a 2-sample take at gain 1.0. -/
theorem c8_premix_witness :
    MixSpec [[(1:ℚ)/5], [(1:ℚ)/5], [(1:ℚ)/5], [(1:ℚ)/5]]
      [[(2:ℚ)/5], [(2:ℚ)/5]] 1 (1/2) 1 :=
  (c8_premix [[(1:ℚ)/5], [(1:ℚ)/5], [(1:ℚ)/5], [(1:ℚ)/5]]
    [[(2:ℚ)/5], [(2:ℚ)/5]] 1 (1/2) 1).1

/-- C4: one playback-callback invocation returns the next `frames`
cursor-relative samples multiplied by the current gain, zero-padded to the
requested length, advances the cursor by the number of frames actually
read, and signals end-of-stream exactly when fewer frames than requested
remained. -/
theorem c4_playback_callback (data : List Frame) (nch : Nat) (volume : ℚ)
    (position frames : Nat) (h : position ≤ data.length) :
    CallbackCorrect data nch volume position frames := by
  have hm : (data.drop position).length = data.length - position := List.length_drop _ _
  have hend : min (position + frames) data.length - position
      = min frames (data.length - position) := by omega
  have htake : (data.drop position).take (min frames (data.length - position))
      = (data.drop position).take frames := by
    rcases le_or_lt frames (data.length - position) with hle | hlt
    · rw [min_eq_left hle]
    · rw [min_eq_right hlt.le, ← hm, List.take_length]
      exact (List.take_of_length_le (by omega)).symm
  have hchunklen :
      (((data.drop position).take frames).map
        (fun f => f.map (fun x => x * volume))).length
      = min frames (data.length - position) := by
    rw [List.length_map, List.length_take, hm]
  simp only [CallbackCorrect, player_callback, hend, htake, hchunklen]
  by_cases hc : min frames (data.length - position) < frames
  · rw [if_pos hc]
    refine ⟨rfl, ?_, ?_, by simp [hc]⟩
    swap
    · show min (position + frames) data.length
          = position + min frames (data.length - position)
      omega
    rw [List.length_append, hchunklen, List.length_replicate]
    omega
  · rw [if_neg hc]
    have hk : min frames (data.length - position) = frames := by omega
    refine ⟨?_, ?_, ?_, by simp [hc]⟩
    rotate_left 2
    · show min (position + frames) data.length
          = position + min frames (data.length - position)
      omega
    · rw [hk]
      simp
    · rw [hchunklen, hk]

/-- Witness for C4: a three-frame mono track, cursor at frame 1, gain 2,
four frames requested. -/
theorem c4_playback_callback_witness :
    1 ≤ ([[(1:ℚ)], [(2:ℚ)], [(3:ℚ)]] : List Frame).length ∧
    CallbackCorrect [[(1:ℚ)], [(2:ℚ)], [(3:ℚ)]] 1 2 1 4 :=
  ⟨by decide, c4_playback_callback [[(1:ℚ)], [(2:ℚ)], [(3:ℚ)]] 1 2 1 4 (by decide)⟩

end Omotiv
